import Mathlib

/-!
Verification of the blob-decoder layer of PyDX (`src/pydx/parsers.py`).

Shallow embedding conventions:
* A blob (Python `bytes`) is a `List Nat` whose entries are below 256; where a
  property needs the byte bound it is an explicit hypothesis.
* Fallible decoders return `Except Err _`; a Python `AssertionError` or
  `struct.error` raised on a byte-count violation is modelled as
  `Err.MalformedLength`, a missing XML element or attribute
  (`AttributeError` / `KeyError`) as `Err.MissingField`, and a failing
  numeric conversion (`ValueError` from `float`) as `Err.ParseError`,
  following the error taxonomy of the specification.
* IEEE-754 doubles are represented by their 64-bit little-endian bit
  pattern (a `Nat`): the decoders never do floating-point arithmetic, and
  CPython's `struct.unpack`/`pack` for `<d` is a bit-preserving copy, so
  the bit pattern is a faithful, injective representation of the value.
-/

/-- Error taxonomy of the specification (section 7). -/
inductive Err where
  | MalformedLength
  | InvalidArchive
  | InvalidEncoding
  | InvalidBase64
  | MissingField
  | ParseError
  | DecompressionError
  deriving DecidableEq

/-- Little-endian unsigned interpretation of a byte list
(`int.from_bytes(bs, "little")`). -/
def leNat : List Nat → Nat
  | [] => 0
  | b :: bs => b + 256 * leNat bs

/-- Serialize a number as `w` little-endian bytes (`int.to_bytes`,
truncating to the low `8*w` bits). -/
def leBytes : Nat → Nat → List Nat
  | 0, _ => []
  | w + 1, v => v % 256 :: leBytes w (v / 256)

/-- Little-endian signed 32-bit interpretation of a 4-byte list
(`int.from_bytes(bs, "little", signed=True)`). -/
def leInt32 (bs : List Nat) : Int :=
  if leNat bs < 2147483648 then (leNat bs : Int) else (leNat bs : Int) - 4294967296

/-- `filterIdxFrom p i l` keeps the elements of `l` whose index (counted
from `i`) satisfies `p`: the comprehension
`bytes(b for j, b in enumerate(blb) if p(j))` is `filterIdxFrom p 0 blb`. -/
def filterIdxFrom (p : Nat → Bool) : Nat → List Nat → List Nat
  | _, [] => []
  | i, b :: bs => if p i then b :: filterIdxFrom p (i + 1) bs else filterIdxFrom p (i + 1) bs

/-- Consecutive 8-byte groups of a byte list, as consumed by
`struct.unpack` with format `<dd...d` (a trailing group shorter than 8
bytes never arises at the call sites, which check divisibility first). -/
def chunks8 : List Nat → List (List Nat)
  | b0 :: b1 :: b2 :: b3 :: b4 :: b5 :: b6 :: b7 :: rest =>
      [b0, b1, b2, b3, b4, b5, b6, b7] :: chunks8 rest
  | _ => []

/-- Consecutive 4-byte groups of a byte list (the slices
`kept[k:k+4] for k in range(0, len(kept), 4)` after the mod-4 check). -/
def chunks4 : List Nat → List (List Nat)
  | b0 :: b1 :: b2 :: b3 :: rest => [b0, b1, b2, b3] :: chunks4 rest
  | _ => []

/-- Index predicate of the stride-9 value stream: `i % 9 != 8`. -/
def keepIdx9 (i : Nat) : Bool := i % 9 != 8

/-- Index predicate of the stride-9 flag stream: `i % 9 == 8`. -/
def flagIdx9 (i : Nat) : Bool := i % 9 == 8

/-- Index predicate of the stride-5 kept stream: `(j + 1) % 5 != 0`
(drops every 5th byte). -/
def keepIdx5 (j : Nat) : Bool := (j + 1) % 5 != 0

/-- The stride-9 value stream: bytes at indices `i % 9 != 8`, unpacked as
consecutive little-endian doubles (represented by their bit patterns). -/
def vals9 (blb : List Nat) : List Nat :=
  (chunks8 (filterIdxFrom keepIdx9 0 blb)).map leNat

/-- The stride-9 flag stream: bytes at indices `i % 9 == 8`
(`struct.unpack` with format `<BB...B` returns the bytes themselves). -/
def flags9 (blb : List Nat) : List Nat :=
  filterIdxFrom flagIdx9 0 blb

/-- `decode_peak_ratings` (parsers.py lines 35-42): asserts
`len(blb) % 9 == 0`, splits the blob into an 8-byte-value stream and a
flag-byte stream. -/
def decode_peak_ratings (blb : List Nat) : Except Err (List Nat × List Nat) :=
  if blb.length % 9 = 0 then Except.ok (vals9 blb, flags9 blb)
  else Except.error Err.MalformedLength

/-- `decode_peak_areas` (parsers.py lines 82-89): byte-for-byte the same
algorithm as `decode_peak_ratings`. -/
def decode_peak_areas (blb : List Nat) : Except Err (List Nat × List Nat) :=
  if blb.length % 9 = 0 then Except.ok (vals9 blb, flags9 blb)
  else Except.error Err.MalformedLength

/-- The stride-5 kept stream: the blob with every 5th byte dropped. -/
def kept5 (blb : List Nat) : List Nat := filterIdxFrom keepIdx5 0 blb

/-- NumPy conversion of a Python int to `uint16` (C cast: keep low 16 bits). -/
def toUInt16 (v : Int) : Nat := (v % 65536).toNat

/-- NumPy conversion of a Python int to `uint8` (C cast: keep low 8 bits). -/
def toUInt8 (v : Int) : Nat := (v % 256).toNat

/-- `decode_gap_fill_status` (parsers.py lines 91-96): drop every 5th
byte, require the remainder to be a multiple of 4, decode each 4-byte
group as a little-endian signed 32-bit integer and store in a `uint16`
array. -/
def decode_gap_fill_status (blb : List Nat) : Except Err (List Nat) :=
  if (kept5 blb).length % 4 = 0 then
    Except.ok ((chunks4 (kept5 blb)).map (fun c => toUInt16 (leInt32 c)))
  else Except.error Err.MalformedLength

/-- `decode_gap_status` (parsers.py lines 107-111): same as
`decode_gap_fill_status` but the output array is `uint8`. -/
def decode_gap_status (blb : List Nat) : Except Err (List Nat) :=
  if (kept5 blb).length % 4 = 0 then
    Except.ok ((chunks4 (kept5 blb)).map (fun c => toUInt8 (leInt32 c)))
  else Except.error Err.MalformedLength

/-- `decode_retention_times` (parsers.py lines 113-116): asserts
`(len(blb) - 4) % 8 == 0` (Python modulo on a possibly negative number,
hence the `Int` arithmetic), reads a 4-byte little-endian count, then
`struct.unpack` requires the rest to hold exactly that many doubles and
raises `struct.error` otherwise (also modelled as `MalformedLength`:
both failures are byte-count violations in the taxonomy of section 7). -/
def decode_retention_times (blb : List Nat) : Except Err (List Nat) :=
  if ((blb.length : Int) - 4) % 8 = 0 then
    if (blb.drop 4).length = 8 * leNat (blb.take 4) then
      Except.ok ((chunks8 (blb.drop 4)).map leNat)
    else Except.error Err.MalformedLength
  else Except.error Err.MalformedLength

/-- The gap fill method code table (parsers.py lines 10-24). -/
def gap_fill_status_codes : List (Nat × String) :=
  [(0, "Unknown status"), (1, "Original ion used"), (2, "Unable to fill"),
   (4, "Filled by arbitrary value"), (8, "Filled by trace area"),
   (16, "Filled by simulated peak"), (32, "Filled by spectrum noise"),
   (64, "Filled by matching ion"), (128, "Filled by re-detected peak"),
   (256, "Imputed by low area value"), (512, "Imputed by group median"),
   (1024, "Imputed by Random Forest"), (2048, "Skipped")]

/-- The gap status code table (parsers.py lines 26-30). -/
def gap_status_codes : List (Nat × String) :=
  [(1, "No gap"), (2, "Missing ions"), (3, "Full gap")]

/-- Re-serialization of a stride-9 record list: each (value, flag) pair
becomes 8 little-endian value bytes followed by the flag byte. -/
def serialize9 : List (Nat × Nat) → List Nat
  | [] => []
  | (v, fl) :: rest => leBytes 8 v ++ fl :: serialize9 rest

deriving instance DecidableEq for Except

lemma filterIdxFrom_period (p : Nat → Bool) (T : Nat) (hp : ∀ i, p (i + T) = p i)
    (l : List Nat) : ∀ i, filterIdxFrom p (i + T) l = filterIdxFrom p i l := by
  induction l with
  | nil => intro i; rfl
  | cons b bs ih =>
    intro i
    have h1 : i + T + 1 = i + 1 + T := by omega
    simp only [filterIdxFrom, hp i, h1, ih (i + 1)]

lemma keepIdx9_period (i : Nat) : keepIdx9 (i + 9) = keepIdx9 i := by
  simp [keepIdx9, Nat.add_mod_right]

lemma flagIdx9_period (i : Nat) : flagIdx9 (i + 9) = flagIdx9 i := by
  simp [flagIdx9, Nat.add_mod_right]

lemma keepIdx5_period (i : Nat) : keepIdx5 (i + 5) = keepIdx5 i := by
  have h : i + 5 + 1 = i + 1 + 5 := by omega
  simp [keepIdx5, h, Nat.add_mod_right]

lemma exists_cons4 (l : List Nat) (h : 4 ≤ l.length) :
    ∃ a b c d rest, l = a :: b :: c :: d :: rest := by
  rcases l with _ | ⟨a, l⟩; · simp at h
  rcases l with _ | ⟨b, l⟩; · simp at h
  rcases l with _ | ⟨c, l⟩; · simp at h
  rcases l with _ | ⟨d, l⟩; · simp at h
  exact ⟨a, b, c, d, l, rfl⟩

lemma exists_cons5 (l : List Nat) (h : 5 ≤ l.length) :
    ∃ a b c d e rest, l = a :: b :: c :: d :: e :: rest := by
  rcases l with _ | ⟨a, l⟩; · simp at h
  rcases l with _ | ⟨b, l⟩; · simp at h
  rcases l with _ | ⟨c, l⟩; · simp at h
  rcases l with _ | ⟨d, l⟩; · simp at h
  rcases l with _ | ⟨e, l⟩; · simp at h
  exact ⟨a, b, c, d, e, l, rfl⟩

lemma exists_cons9 (l : List Nat) (h : 9 ≤ l.length) :
    ∃ b0 b1 b2 b3 b4 b5 b6 b7 f rest,
      l = b0 :: b1 :: b2 :: b3 :: b4 :: b5 :: b6 :: b7 :: f :: rest := by
  rcases l with _ | ⟨b0, l⟩; · simp at h
  rcases l with _ | ⟨b1, l⟩; · simp at h
  rcases l with _ | ⟨b2, l⟩; · simp at h
  rcases l with _ | ⟨b3, l⟩; · simp at h
  rcases l with _ | ⟨b4, l⟩; · simp at h
  rcases l with _ | ⟨b5, l⟩; · simp at h
  rcases l with _ | ⟨b6, l⟩; · simp at h
  rcases l with _ | ⟨b7, l⟩; · simp at h
  rcases l with _ | ⟨f, l⟩; · simp at h
  exact ⟨b0, b1, b2, b3, b4, b5, b6, b7, f, l, rfl⟩

lemma kept9v_cons (b0 b1 b2 b3 b4 b5 b6 b7 f : Nat) (rest : List Nat) :
    filterIdxFrom keepIdx9 0 (b0 :: b1 :: b2 :: b3 :: b4 :: b5 :: b6 :: b7 :: f :: rest)
      = b0 :: b1 :: b2 :: b3 :: b4 :: b5 :: b6 :: b7 :: filterIdxFrom keepIdx9 0 rest := by
  have h9 : filterIdxFrom keepIdx9 (0 + 9) rest = filterIdxFrom keepIdx9 0 rest :=
    filterIdxFrom_period keepIdx9 9 keepIdx9_period rest 0
  norm_num at h9
  simp [filterIdxFrom, keepIdx9, h9]

lemma kept9f_cons (b0 b1 b2 b3 b4 b5 b6 b7 f : Nat) (rest : List Nat) :
    filterIdxFrom flagIdx9 0 (b0 :: b1 :: b2 :: b3 :: b4 :: b5 :: b6 :: b7 :: f :: rest)
      = f :: filterIdxFrom flagIdx9 0 rest := by
  have h9 : filterIdxFrom flagIdx9 (0 + 9) rest = filterIdxFrom flagIdx9 0 rest :=
    filterIdxFrom_period flagIdx9 9 flagIdx9_period rest 0
  norm_num at h9
  simp [filterIdxFrom, flagIdx9, h9]

lemma kept5_cons (a b c d e : Nat) (rest : List Nat) :
    filterIdxFrom keepIdx5 0 (a :: b :: c :: d :: e :: rest)
      = a :: b :: c :: d :: filterIdxFrom keepIdx5 0 rest := by
  have h5 : filterIdxFrom keepIdx5 (0 + 5) rest = filterIdxFrom keepIdx5 0 rest :=
    filterIdxFrom_period keepIdx5 5 keepIdx5_period rest 0
  norm_num at h5
  simp [filterIdxFrom, keepIdx5, h5]

lemma leBytes_leNat (l : List Nat) (h : ∀ x ∈ l, x < 256) :
    leBytes l.length (leNat l) = l := by
  induction l with
  | nil => rfl
  | cons b bs ih =>
    have hb : b < 256 := h b (by simp)
    have hbs : ∀ x ∈ bs, x < 256 := fun x hx => h x (by simp [hx])
    simp only [List.length_cons, leBytes, leNat]
    congr 1
    · omega
    · have hd : (b + 256 * leNat bs) / 256 = leNat bs := by omega
      rw [hd]
      exact ih hbs

example : decode_gap_status [44, 1, 0, 0, 0] = Except.ok [44] := by decide
example : decode_gap_fill_status [0, 4, 0, 0, 7] = Except.ok [1024] := by decide
example : decode_peak_ratings [1, 0, 0, 0, 0, 0, 0, 0, 9] = Except.ok ([1], [9]) := by decide
example : decode_retention_times [1, 0, 0, 0, 2, 0, 0, 0, 0, 0, 0, 0] = Except.ok [2] := by decide
example : decode_retention_times [3, 0, 0, 0, 2, 0, 0, 0, 0, 0, 0, 0] = Except.error Err.MalformedLength := by decide
example : decode_gap_status [255, 255, 255, 255, 0] = Except.ok [255] := by decide
example : leInt32 [255, 255, 255, 255] = -1 := by decide

lemma vals9_cons (b0 b1 b2 b3 b4 b5 b6 b7 f : Nat) (rest : List Nat) :
    vals9 (b0 :: b1 :: b2 :: b3 :: b4 :: b5 :: b6 :: b7 :: f :: rest)
      = leNat [b0, b1, b2, b3, b4, b5, b6, b7] :: vals9 rest := by
  rw [vals9, kept9v_cons]
  rfl

lemma flags9_cons (b0 b1 b2 b3 b4 b5 b6 b7 f : Nat) (rest : List Nat) :
    flags9 (b0 :: b1 :: b2 :: b3 :: b4 :: b5 :: b6 :: b7 :: f :: rest)
      = f :: flags9 rest := by
  rw [flags9, kept9f_cons]
  rfl

lemma stride9_spec : ∀ (k : Nat) (blb : List Nat), (∀ x ∈ blb, x < 256) →
    blb.length = 9 * k →
    (vals9 blb).length = k ∧ (flags9 blb).length = k ∧
    (∀ i, i < k →
       (vals9 blb).get? i = some (leNat ((blb.drop (9 * i)).take 8)) ∧
       (flags9 blb).get? i = blb.get? (9 * i + 8)) ∧
    serialize9 ((vals9 blb).zip (flags9 blb)) = blb := by
  intro k
  induction k with
  | zero =>
    intro blb _ hlen
    have hnil : blb = [] := List.length_eq_zero.mp (by omega)
    subst hnil
    refine ⟨rfl, rfl, ?_, rfl⟩
    intro i hi
    omega
  | succ k ih =>
    intro blb h256 hlen
    obtain ⟨b0, b1, b2, b3, b4, b5, b6, b7, f, rest, rfl⟩ :=
      exists_cons9 blb (by omega)
    have hrest : rest.length = 9 * k := by
      simp only [List.length_cons] at hlen
      omega
    have h256r : ∀ x ∈ rest, x < 256 := by
      intro x hx
      exact h256 x (by simp [hx])
    obtain ⟨ihl, ihfl, ihidx, ihser⟩ := ih rest h256r hrest
    refine ⟨?_, ?_, ?_, ?_⟩
    · simp [vals9_cons, ihl]
    · simp [flags9_cons, ihfl]
    · intro i hi
      cases i with
      | zero =>
        constructor
        · simp [vals9_cons]
        · simp [flags9_cons]
      | succ j =>
        have hj : j < k := by omega
        obtain ⟨hv, hf⟩ := ihidx j hj
        have hrestdrop : rest = List.drop 9
            (b0 :: b1 :: b2 :: b3 :: b4 :: b5 :: b6 :: b7 :: f :: rest) := rfl
        constructor
        · have hdrop : List.drop (9 * (j + 1))
              (b0 :: b1 :: b2 :: b3 :: b4 :: b5 :: b6 :: b7 :: f :: rest)
              = List.drop (9 * j) rest := by
            rw [hrestdrop, List.drop_drop]
            congr 1
            ring
          rw [vals9_cons, hdrop]
          simpa using hv
        · have hgd : (b0 :: b1 :: b2 :: b3 :: b4 :: b5 :: b6 :: b7 :: f :: rest).get?
              (9 * (j + 1) + 8) = rest.get? (9 * j + 8) := by
            have h1 : 9 * (j + 1) + 8 = 9 + (9 * j + 8) := by ring
            rw [h1, ← List.get?_drop]
            rfl
          rw [flags9_cons, hgd]
          simpa using hf
    · rw [vals9_cons, flags9_cons, List.zip_cons_cons]
      have hbytes : leBytes 8 (leNat [b0, b1, b2, b3, b4, b5, b6, b7])
          = [b0, b1, b2, b3, b4, b5, b6, b7] := by
        have h8 : ([b0, b1, b2, b3, b4, b5, b6, b7] : List Nat).length = 8 := rfl
        have hlt : ∀ x ∈ ([b0, b1, b2, b3, b4, b5, b6, b7] : List Nat), x < 256 := by
          intro x hx
          apply h256
          simp only [List.mem_cons] at hx ⊢
          tauto
        have := leBytes_leNat [b0, b1, b2, b3, b4, b5, b6, b7] hlt
        rwa [h8] at this
      simp [serialize9, hbytes, ihser]

lemma exists_cons8 (l : List Nat) (h : 8 ≤ l.length) :
    ∃ b0 b1 b2 b3 b4 b5 b6 b7 rest,
      l = b0 :: b1 :: b2 :: b3 :: b4 :: b5 :: b6 :: b7 :: rest := by
  rcases l with _ | ⟨b0, l⟩; · simp at h
  rcases l with _ | ⟨b1, l⟩; · simp at h
  rcases l with _ | ⟨b2, l⟩; · simp at h
  rcases l with _ | ⟨b3, l⟩; · simp at h
  rcases l with _ | ⟨b4, l⟩; · simp at h
  rcases l with _ | ⟨b5, l⟩; · simp at h
  rcases l with _ | ⟨b6, l⟩; · simp at h
  rcases l with _ | ⟨b7, l⟩; · simp at h
  exact ⟨b0, b1, b2, b3, b4, b5, b6, b7, l, rfl⟩

lemma kept5_cons5 (a b c d e : Nat) (rest : List Nat) :
    kept5 (a :: b :: c :: d :: e :: rest) = a :: b :: c :: d :: kept5 rest := by
  rw [kept5, kept5_cons]
  rfl

lemma stride5_mul : ∀ (k : Nat) (blb : List Nat), blb.length = 5 * k →
    (kept5 blb).length = 4 * k := by
  intro k
  induction k with
  | zero =>
    intro blb hlen
    have hnil : blb = [] := List.length_eq_zero.mp (by omega)
    subst hnil
    rfl
  | succ k ih =>
    intro blb hlen
    obtain ⟨a, b, c, d, e, rest, rfl⟩ := exists_cons5 blb (by omega)
    have hrest : rest.length = 5 * k := by
      simp only [List.length_cons] at hlen
      omega
    rw [kept5_cons5]
    simp only [List.length_cons, ih rest hrest]
    omega

lemma stride5_mod4 : ∀ (k : Nat) (blb : List Nat), blb.length = 5 * k + 4 →
    (kept5 blb).length = 4 * k + 4 ∧ (kept5 blb).drop (4 * k) = blb.drop (5 * k) := by
  intro k
  induction k with
  | zero =>
    intro blb hlen
    obtain ⟨a, b, c, d, rest, rfl⟩ := exists_cons4 blb (by omega)
    simp only [List.length_cons] at hlen
    have hnil : rest = [] := List.length_eq_zero.mp (by omega)
    subst hnil
    exact ⟨rfl, rfl⟩
  | succ k ih =>
    intro blb hlen
    obtain ⟨a, b, c, d, e, rest, rfl⟩ := exists_cons5 blb (by omega)
    have hrest : rest.length = 5 * k + 4 := by
      simp only [List.length_cons] at hlen
      omega
    obtain ⟨ihl, ihd⟩ := ih rest hrest
    constructor
    · rw [kept5_cons5]
      simp only [List.length_cons, ihl]
      omega
    · have h1 : 4 * (k + 1) = 4 * k + 4 := by ring
      have h2 : 5 * (k + 1) = 5 * k + 5 := by ring
      rw [kept5_cons5, h1, h2]
      exact ihd

lemma chunks4_length : ∀ (k : Nat) (l : List Nat), l.length = 4 * k →
    (chunks4 l).length = k := by
  intro k
  induction k with
  | zero =>
    intro l hlen
    have hnil : l = [] := List.length_eq_zero.mp (by omega)
    subst hnil
    rfl
  | succ k ih =>
    intro l hlen
    obtain ⟨a, b, c, d, rest, rfl⟩ := exists_cons4 l (by omega)
    have hrest : rest.length = 4 * k := by
      simp only [List.length_cons] at hlen
      omega
    simp only [chunks4, List.length_cons, ih rest hrest]

lemma chunks8_length : ∀ (k : Nat) (l : List Nat), l.length = 8 * k →
    (chunks8 l).length = k := by
  intro k
  induction k with
  | zero =>
    intro l hlen
    have hnil : l = [] := List.length_eq_zero.mp (by omega)
    subst hnil
    rfl
  | succ k ih =>
    intro l hlen
    obtain ⟨b0, b1, b2, b3, b4, b5, b6, b7, rest, rfl⟩ := exists_cons8 l (by omega)
    have hrest : rest.length = 8 * k := by
      simp only [List.length_cons] at hlen
      omega
    simp only [chunks8, List.length_cons, ih rest hrest]

lemma chunks4_get? : ∀ (k : Nat) (l : List Nat), l.length = 4 * k →
    ∀ i, i < k → (chunks4 l).get? i = some ((l.drop (4 * i)).take 4) := by
  intro k
  induction k with
  | zero =>
    intro l _ i hi
    omega
  | succ k ih =>
    intro l hlen i hi
    obtain ⟨a, b, c, d, rest, rfl⟩ := exists_cons4 l (by omega)
    have hrest : rest.length = 4 * k := by
      simp only [List.length_cons] at hlen
      omega
    cases i with
    | zero => rfl
    | succ j =>
      have hj : j < k := by omega
      have hdrop : List.drop (4 * (j + 1)) (a :: b :: c :: d :: rest)
          = List.drop (4 * j) rest := by
        have : rest = List.drop 4 (a :: b :: c :: d :: rest) := rfl
        rw [this, List.drop_drop]
        congr 1
        ring
      rw [chunks4, hdrop]
      simp only [List.get?_cons_succ]
      exact ih rest hrest j hj

/-- C2: for every blob whose length is a multiple of 9 (bytes below 256),
the stride-9 decoders `decode_peak_ratings` and `decode_peak_areas`
succeed with values and flags arrays of length `len(blob)/9`; record i's
value is the little-endian double (bit pattern) of bytes 9i..9i+7 and its
flag is byte 9i+8; re-serializing each (value, flag) pair as 8 value
bytes followed by the flag byte reproduces the blob byte for byte. -/
theorem stride9_roundtrip (blb : List Nat) (h256 : ∀ x ∈ blb, x < 256)
    (h9 : blb.length % 9 = 0) :
    decode_peak_ratings blb = Except.ok (vals9 blb, flags9 blb)
    ∧ decode_peak_areas blb = Except.ok (vals9 blb, flags9 blb)
    ∧ (vals9 blb).length = blb.length / 9
    ∧ (flags9 blb).length = blb.length / 9
    ∧ (∀ i, i < blb.length / 9 →
        (vals9 blb).get? i = some (leNat ((blb.drop (9 * i)).take 8))
        ∧ (flags9 blb).get? i = blb.get? (9 * i + 8))
    ∧ serialize9 ((vals9 blb).zip (flags9 blb)) = blb := by
  have hk : blb.length = 9 * (blb.length / 9) :=
    (Nat.mul_div_cancel' (Nat.dvd_of_mod_eq_zero h9)).symm
  obtain ⟨h1, h2, h3, h4⟩ := stride9_spec (blb.length / 9) blb h256 hk
  refine ⟨?_, ?_, h1, h2, h3, h4⟩
  · simp [decode_peak_ratings, h9]
  · simp [decode_peak_areas, h9]

theorem stride9_roundtrip_witness :
    serialize9 ((vals9 [1, 0, 0, 0, 0, 0, 0, 0, 9, 255, 254, 0, 0, 0, 0, 0, 0, 7]).zip
        (flags9 [1, 0, 0, 0, 0, 0, 0, 0, 9, 255, 254, 0, 0, 0, 0, 0, 0, 7]))
      = [1, 0, 0, 0, 0, 0, 0, 0, 9, 255, 254, 0, 0, 0, 0, 0, 0, 7]
    ∧ decode_peak_ratings [1, 0, 0, 0, 0, 0, 0, 0, 9, 255, 254, 0, 0, 0, 0, 0, 0, 7]
      = Except.ok (vals9 [1, 0, 0, 0, 0, 0, 0, 0, 9, 255, 254, 0, 0, 0, 0, 0, 0, 7],
                   flags9 [1, 0, 0, 0, 0, 0, 0, 0, 9, 255, 254, 0, 0, 0, 0, 0, 0, 7]) := by
  have h := stride9_roundtrip [1, 0, 0, 0, 0, 0, 0, 0, 9, 255, 254, 0, 0, 0, 0, 0, 0, 7]
    (by decide) (by decide)
  exact ⟨h.2.2.2.2.2, h.1⟩

/-- C5: for every blob whose length is not a multiple of 9, both stride-9
decoders fail with MalformedLength and produce no result. -/
theorem stride9_malformed (blb : List Nat) (h9 : blb.length % 9 ≠ 0) :
    decode_peak_ratings blb = Except.error Err.MalformedLength
    ∧ decode_peak_areas blb = Except.error Err.MalformedLength := by
  constructor
  · simp [decode_peak_ratings, h9]
  · simp [decode_peak_areas, h9]

theorem stride9_malformed_witness :
    decode_peak_ratings [1, 2, 3] = Except.error Err.MalformedLength
    ∧ decode_peak_areas [1, 2, 3] = Except.error Err.MalformedLength :=
  stride9_malformed [1, 2, 3] (by decide)

/-- C6: for every blob whose length is a multiple of 5, both stride-5
decoders succeed: after dropping every 5th byte the remaining length is
divisible by 4 and the output has exactly `len(blob)/5` elements, one per
4-byte group of the kept stream in order. -/
theorem stride5_valid (blb : List Nat) (h5 : blb.length % 5 = 0) :
    (kept5 blb).length % 4 = 0
    ∧ decode_gap_fill_status blb
        = Except.ok ((chunks4 (kept5 blb)).map (fun c => toUInt16 (leInt32 c)))
    ∧ decode_gap_status blb
        = Except.ok ((chunks4 (kept5 blb)).map (fun c => toUInt8 (leInt32 c)))
    ∧ ((chunks4 (kept5 blb)).map (fun c => toUInt16 (leInt32 c))).length = blb.length / 5
    ∧ ((chunks4 (kept5 blb)).map (fun c => toUInt8 (leInt32 c))).length = blb.length / 5 := by
  have hlen : blb.length = 5 * (blb.length / 5) :=
    (Nat.mul_div_cancel' (Nat.dvd_of_mod_eq_zero h5)).symm
  have hkept : (kept5 blb).length = 4 * (blb.length / 5) :=
    stride5_mul (blb.length / 5) blb hlen
  have hmod : (kept5 blb).length % 4 = 0 := by
    rw [hkept]
    simp [Nat.mul_mod_right]
  have hchunks : (chunks4 (kept5 blb)).length = blb.length / 5 :=
    chunks4_length (blb.length / 5) (kept5 blb) hkept
  refine ⟨hmod, ?_, ?_, ?_, ?_⟩
  · simp [decode_gap_fill_status, hmod]
  · simp [decode_gap_status, hmod]
  · simp [List.length_map, hchunks]
  · simp [List.length_map, hchunks]

theorem stride5_valid_witness :
    decode_gap_fill_status [44, 1, 0, 0, 7, 0, 4, 0, 0, 7]
      = Except.ok ((chunks4 (kept5 [44, 1, 0, 0, 7, 0, 4, 0, 0, 7])).map
          (fun c => toUInt16 (leInt32 c)))
    ∧ ((chunks4 (kept5 [44, 1, 0, 0, 7, 0, 4, 0, 0, 7])).map
          (fun c => toUInt16 (leInt32 c))).length = 2 := by
  have h := stride5_valid [44, 1, 0, 0, 7, 0, 4, 0, 0, 7] (by decide)
  exact ⟨h.2.1, h.2.2.2.1.trans (by decide)⟩

lemma chunks4_map_get? (f : List Nat → Nat) (l : List Nat) (hmod : l.length % 4 = 0)
    (i : Nat) (hi : i < ((chunks4 l).map f).length) :
    ((chunks4 l).map f).get? i = some (f ((l.drop (4 * i)).take 4)) := by
  have hK : l.length = 4 * (l.length / 4) :=
    (Nat.mul_div_cancel' (Nat.dvd_of_mod_eq_zero hmod)).symm
  have hcl : (chunks4 l).length = l.length / 4 :=
    chunks4_length (l.length / 4) l hK
  have hi2 : i < l.length / 4 := by
    rw [List.length_map, hcl] at hi
    exact hi
  rw [List.get?_map, chunks4_get? (l.length / 4) l hK i hi2]
  rfl

/-- C1: for every stride-5 blob that decodes successfully, output element
i of the gap-fill-status decoder is the little-endian signed 32-bit value
of the i-th kept 4-byte group reduced modulo 2^16 (= 65536), and output
element i of the gap-status decoder is that value reduced modulo
2^8 (= 256) — truncation that keeps low bits, not saturation or a range
check; in particular the group [44, 1, 0, 0] decodes to the signed value
300 and the 8-bit output is 44. -/
theorem stride5_narrowing :
    (∀ blb out, decode_gap_fill_status blb = Except.ok out →
      ∀ i, i < out.length →
        out.get? i = some ((leInt32 (((kept5 blb).drop (4 * i)).take 4) % 65536).toNat))
    ∧ (∀ blb out, decode_gap_status blb = Except.ok out →
      ∀ i, i < out.length →
        out.get? i = some ((leInt32 (((kept5 blb).drop (4 * i)).take 4) % 256).toNat))
    ∧ decode_gap_status [44, 1, 0, 0, 0] = Except.ok [44]
    ∧ leInt32 [44, 1, 0, 0] = 300 := by
  refine ⟨?_, ?_, by decide, by decide⟩
  · intro blb out hok i hi
    by_cases hmod : (kept5 blb).length % 4 = 0
    · simp only [decode_gap_fill_status, if_pos hmod] at hok
      injection hok with hok
      subst hok
      exact chunks4_map_get? _ _ hmod i hi
    · simp only [decode_gap_fill_status, if_neg hmod] at hok
      cases hok
  · intro blb out hok i hi
    by_cases hmod : (kept5 blb).length % 4 = 0
    · simp only [decode_gap_status, if_pos hmod] at hok
      injection hok with hok
      subst hok
      exact chunks4_map_get? _ _ hmod i hi
    · simp only [decode_gap_status, if_neg hmod] at hok
      cases hok

theorem stride5_narrowing_witness :
    ([1024] : List Nat).get? 0
      = some ((leInt32 (((kept5 [0, 4, 0, 0, 7]).drop (4 * 0)).take 4) % 65536).toNat)
    ∧ ([44] : List Nat).get? 0
      = some ((leInt32 (((kept5 [44, 1, 0, 0, 0]).drop (4 * 0)).take 4) % 256).toNat) := by
  constructor
  · exact stride5_narrowing.1 [0, 4, 0, 0, 7] [1024] (by decide) 0 (by decide)
  · exact stride5_narrowing.2.1 [44, 1, 0, 0, 0] [44] (by decide) 0 (by decide)

/-- C9 (implicit): the stride-5 validity check only tests that the kept
byte count is a multiple of 4, not that the blob length is a multiple
of 5; for every blob whose length is congruent to 4 modulo 5 both
stride-5 decoders succeed and return floor(len/5) + 1 values, and the
final 4-byte group of the kept stream is the blob's own trailing 4 bytes
(no fifth byte was dropped from it). -/
theorem stride5_trailing (blb : List Nat) (h5 : blb.length % 5 = 4) :
    decode_gap_status blb
      = Except.ok ((chunks4 (kept5 blb)).map (fun c => toUInt8 (leInt32 c)))
    ∧ decode_gap_fill_status blb
      = Except.ok ((chunks4 (kept5 blb)).map (fun c => toUInt16 (leInt32 c)))
    ∧ ((chunks4 (kept5 blb)).map (fun c => toUInt8 (leInt32 c))).length
      = blb.length / 5 + 1
    ∧ ((chunks4 (kept5 blb)).map (fun c => toUInt16 (leInt32 c))).length
      = blb.length / 5 + 1
    ∧ (kept5 blb).drop (4 * (blb.length / 5)) = blb.drop (5 * (blb.length / 5)) := by
  have hk : blb.length = 5 * (blb.length / 5) + 4 := by omega
  obtain ⟨hlen, hdrop⟩ := stride5_mod4 (blb.length / 5) blb hk
  have hmod : (kept5 blb).length % 4 = 0 := by omega
  have hlen4 : (kept5 blb).length = 4 * (blb.length / 5 + 1) := by omega
  have hchunks : (chunks4 (kept5 blb)).length = blb.length / 5 + 1 :=
    chunks4_length (blb.length / 5 + 1) (kept5 blb) hlen4
  refine ⟨?_, ?_, ?_, ?_, hdrop⟩
  · simp [decode_gap_status, hmod]
  · simp [decode_gap_fill_status, hmod]
  · simp [List.length_map, hchunks]
  · simp [List.length_map, hchunks]

theorem stride5_trailing_witness :
    decode_gap_status [1, 2, 3, 4]
      = Except.ok ((chunks4 (kept5 [1, 2, 3, 4])).map (fun c => toUInt8 (leInt32 c)))
    ∧ ((chunks4 (kept5 [1, 2, 3, 4])).map (fun c => toUInt8 (leInt32 c))).length = 1
    ∧ decode_gap_status [1, 2, 3, 4, 9, 1, 2, 3, 4] = Except.ok [1, 1] := by
  have h := stride5_trailing [1, 2, 3, 4] (by decide)
  exact ⟨h.1, h.2.2.1.trans (by decide), by decide⟩

/-- C4 counterexample: the claim says the gap-fill-status decoder has an
8-bit output in which codes above 255 cannot be represented losslessly;
but on a blob encoding the signed value 1024 ("Imputed by Random Forest")
the decoder returns exactly 1024 — its output is 16-bit wide, so 1024 is
represented losslessly. -/
theorem gap_fill_narrow_counterexample :
    decode_gap_fill_status [0, 4, 0, 0, 0] = Except.ok [1024]
    ∧ decode_gap_fill_status [0, 8, 0, 0, 0] = Except.ok [2048]
    ∧ gap_fill_status_codes.lookup 1024 = some "Imputed by Random Forest"
    ∧ gap_fill_status_codes.lookup 2048 = some "Skipped"
    ∧ (255 : Nat) < 1024 := by
  refine ⟨by decide, by decide, by rfl, by rfl, by decide⟩

/-- C4 amended: the gap-fill-status decoder narrows its decoded signed
32-bit values to a 16-bit output, so the gap fill method codes above 255
(1024 "Imputed by Random Forest", 2048 "Skipped") ARE represented
losslessly there, and only values outside 0..65535 are truncated; it is
the gap-status decoder whose 8-bit output cannot hold codes above 255
(a blob encoding 1024 yields 0 from it). -/
theorem gap_fill_narrow_amended :
    (∀ blb out, decode_gap_fill_status blb = Except.ok out → ∀ x ∈ out, x < 65536)
    ∧ decode_gap_fill_status [0, 4, 0, 0, 0] = Except.ok [1024]
    ∧ decode_gap_fill_status [0, 8, 0, 0, 0] = Except.ok [2048]
    ∧ (∀ blb out, decode_gap_status blb = Except.ok out → ∀ x ∈ out, x < 256)
    ∧ decode_gap_status [0, 4, 0, 0, 0] = Except.ok [0] := by
  refine ⟨?_, by decide, by decide, ?_, by decide⟩
  · intro blb out hok x hx
    by_cases hmod : (kept5 blb).length % 4 = 0
    · simp only [decode_gap_fill_status, if_pos hmod] at hok
      injection hok with hok
      subst hok
      obtain ⟨c, _, rfl⟩ := List.mem_map.mp hx
      have h1 : (0 : Int) ≤ leInt32 c % 65536 := Int.emod_nonneg _ (by norm_num)
      have h2 : leInt32 c % 65536 < 65536 := Int.emod_lt_of_pos _ (by norm_num)
      simp only [toUInt16]
      omega
    · simp only [decode_gap_fill_status, if_neg hmod] at hok
      cases hok
  · intro blb out hok x hx
    by_cases hmod : (kept5 blb).length % 4 = 0
    · simp only [decode_gap_status, if_pos hmod] at hok
      injection hok with hok
      subst hok
      obtain ⟨c, _, rfl⟩ := List.mem_map.mp hx
      have h1 : (0 : Int) ≤ leInt32 c % 256 := Int.emod_nonneg _ (by norm_num)
      have h2 : leInt32 c % 256 < 256 := Int.emod_lt_of_pos _ (by norm_num)
      simp only [toUInt8]
      omega
    · simp only [decode_gap_status, if_neg hmod] at hok
      cases hok

theorem gap_fill_narrow_amended_witness :
    (1024 : Nat) < 65536 :=
  gap_fill_narrow_amended.1 [0, 4, 0, 0, 0] [1024] (by decide) 1024 (by decide)

/-- C3: the length-prefixed decoder reads the first 4 bytes as a
little-endian unsigned count n; it succeeds with exactly n 8-byte
little-endian values when the remaining byte count is 8n, and fails with
MalformedLength whenever it is not (whether the assert's modulus check or
the exact-count check of struct.unpack is what trips). -/
theorem retention_times_spec (blb : List Nat) :
    (blb.length = 4 + 8 * leNat (blb.take 4) →
      decode_retention_times blb = Except.ok ((chunks8 (blb.drop 4)).map leNat)
      ∧ ((chunks8 (blb.drop 4)).map leNat).length = leNat (blb.take 4))
    ∧ (blb.length ≠ 4 + 8 * leNat (blb.take 4) →
      decode_retention_times blb = Except.error Err.MalformedLength) := by
  constructor
  · intro h
    have hdl : (blb.drop 4).length = 8 * leNat (blb.take 4) := by
      rw [List.length_drop]
      omega
    have hint : ((blb.length : Int) - 4) % 8 = 0 := by
      have : (blb.length : Int) = 4 + 8 * (leNat (blb.take 4) : Int) := by
        exact_mod_cast congrArg (Nat.cast : Nat → Int) h
      omega
    constructor
    · simp only [decode_retention_times, if_pos hint, if_pos hdl]
    · rw [List.length_map, chunks8_length (leNat (blb.take 4)) (blb.drop 4) hdl]
  · intro h
    by_cases hint : ((blb.length : Int) - 4) % 8 = 0
    · have hge : 4 ≤ blb.length := by omega
      have hdl : (blb.drop 4).length ≠ 8 * leNat (blb.take 4) := by
        rw [List.length_drop]
        omega
      simp only [decode_retention_times, if_pos hint, if_neg hdl]
    · simp only [decode_retention_times, if_neg hint]

theorem retention_times_spec_witness :
    decode_retention_times ([3, 0, 0, 0] ++ List.replicate 24 5)
      = Except.ok ((chunks8 (([3, 0, 0, 0] ++ List.replicate 24 5).drop 4)).map leNat)
    ∧ ((chunks8 (([3, 0, 0, 0] ++ List.replicate 24 5).drop 4)).map leNat).length = 3
    ∧ decode_retention_times ([3, 0, 0, 0] ++ List.replicate 16 5)
      = Except.error Err.MalformedLength := by
  have h1 := (retention_times_spec ([3, 0, 0, 0] ++ List.replicate 24 5)).1 (by decide)
  have h2 := (retention_times_spec ([3, 0, 0, 0] ++ List.replicate 16 5)).2 (by decide)
  exact ⟨h1.1, h1.2.trans (by decide), h2⟩

/-- XML element as seen through `xml.etree.ElementTree`: tag, attributes,
text content, child elements in document order. -/
inductive Xml where
  | el (tag : String) (attrs : List (String × String)) (txt : String) (children : List Xml)

/-- Element tag. -/
def Xml.tag : Xml → String
  | .el t _ _ _ => t

/-- Element attributes (`element.attrib`, keys unique). -/
def Xml.attrs : Xml → List (String × String)
  | .el _ a _ _ => a

/-- Element text (`element.text`, the empty string for an empty element). -/
def Xml.txt : Xml → String
  | .el _ _ s _ => s

/-- Child elements in document order. -/
def Xml.children : Xml → List Xml
  | .el _ _ _ c => c

/-- `element.find(tag)`: first direct child with the given tag, if any. -/
def findEl (x : Xml) (t : String) : Option Xml :=
  x.children.find? (fun c => c.tag == t)

/-- `element.findall(tag)`: all direct children with the given tag, in
document order. -/
def findallEl (x : Xml) (t : String) : List Xml :=
  x.children.filter (fun c => c.tag == t)

/-- Exact decimal number in canonical form: the value `mant * 10 ^ exp10`
with `mant` never a nonzero multiple of 10 and zero represented as
`⟨0, 0⟩`, so two finite decimal literals denote the same real number
exactly when their canonical forms are equal. The claims proved over the
XML extractors do not depend on rounding decimal text to binary
floating point, so this exact representation of Python float values of
decimal literals is faithful for them. -/
structure DecNum where
  mant : Int
  exp10 : Int
  deriving DecidableEq

/-- Strip trailing decimal zeros: returns the stripped number and how
many zeros were removed (first argument is fuel, always sufficient when
it starts at the number itself). -/
def stripZeros : Nat → Nat → Nat × Nat
  | 0, n => (n, 0)
  | fuel + 1, n =>
    if n ≠ 0 ∧ n % 10 = 0 then
      let p := stripZeros fuel (n / 10)
      (p.1, p.2 + 1)
    else (n, 0)

/-- Canonical decimal from sign, digit value and power-of-ten exponent. -/
def mkDecNum (neg : Bool) (d : Nat) (e : Int) : DecNum :=
  if d = 0 then ⟨0, 0⟩
  else
    let p := stripZeros d d
    ⟨if neg then -(p.1 : Int) else (p.1 : Int), e + (p.2 : Int)⟩

/-- Numeric value of a digit string (most significant first). -/
def digitsVal (cs : List Char) : Nat :=
  cs.foldl (fun acc c => acc * 10 + (c.toNat - 48)) 0

/-- Exponent digits: nonempty, all decimal digits. -/
def parseExpDigits (cs : List Char) : Option Int :=
  if cs ≠ [] ∧ cs.all Char.isDigit then some (digitsVal cs : Int) else none

/-- Optionally signed exponent digits. -/
def parseExpSigned (cs : List Char) : Option Int :=
  match cs with
  | '+' :: r => parseExpDigits r
  | '-' :: r => (parseExpDigits r).map (fun n => -n)
  | r => parseExpDigits r

/-- Strip surrounding whitespace (`str.strip()` as applied by Python
`float` to its argument). -/
def trimChars (cs : List Char) : List Char :=
  ((cs.dropWhile Char.isWhitespace).reverse.dropWhile Char.isWhitespace).reverse

/-- Model of Python `float(s)` on finite decimal literals: surrounding
whitespace stripped, optional sign, decimal digits with an optional
point and an optional signed exponent; the result is the exact decimal
value in canonical form. The special spellings inf/nan and digit-group
underscores are outside the inputs the claims quantify over. Returns
none where Python raises ValueError. -/
def pyFloat (s : String) : Option DecNum :=
  let cs0 := trimChars s.toList
  let neg : Bool := cs0.head? == some '-'
  let cs := if cs0.head? == some '-' || cs0.head? == some '+' then cs0.tail else cs0
  let mant := cs.takeWhile (fun c => !(c == 'e' || c == 'E'))
  let expPart := cs.dropWhile (fun c => !(c == 'e' || c == 'E'))
  let expVal : Option Int :=
    match expPart with
    | [] => some 0
    | _ :: er => parseExpSigned er
  let ip := mant.takeWhile (fun c => !(c == '.'))
  let fp := (mant.dropWhile (fun c => !(c == '.'))).tail
  if ip.all Char.isDigit ∧ fp.all Char.isDigit ∧ 0 < ip.length + fp.length then
    match expVal with
    | none => none
    | some e => some (mkDecNum neg (digitsVal (ip ++ fp)) (e - (fp.length : Int)))
  else none

example : pyFloat "3.5" = some ⟨35, -1⟩ := by decide
example : pyFloat "-2" = some ⟨-2, 0⟩ := by decide
example : pyFloat " 1e2 " = some ⟨1, 2⟩ := by decide
example : pyFloat "0.25e-1" = some ⟨25, -3⟩ := by decide
example : pyFloat "1.0" = some ⟨1, 0⟩ := by decide
example : pyFloat "100" = some ⟨1, 2⟩ := by decide
example : pyFloat "0.0" = some ⟨0, 0⟩ := by decide
example : pyFloat "-0.0" = some ⟨0, 0⟩ := by decide
example : pyFloat "" = none := by decide
example : pyFloat "abc" = none := by decide
example : pyFloat "1.2.3" = none := by decide
example : pyFloat "." = none := by decide
example : pyFloat "1." = some ⟨1, 0⟩ := by decide
example : pyFloat ".5" = some ⟨5, -1⟩ := by decide
example : pyFloat "1e" = none := by decide
example : pyFloat "112808.6875" = some ⟨1128086875, -4⟩ := by decide

/-- One row of the spectrum table (source columns mz, intensity, Z,
resolution, signalNoiseRatio). -/
structure SpectrumRow where
  mz : DecNum
  intensity : DecNum
  charge : DecNum
  resolution : DecNum
  signalNoise : DecNum
  deriving DecidableEq

/-- `float(pk.attrib[key])`: KeyError on a missing attribute is
MissingField, ValueError from float is ParseError. -/
def getAttrNum (pk : Xml) (key : String) : Except Err DecNum :=
  match pk.attrs.lookup key with
  | none => Except.error Err.MissingField
  | some s =>
    match pyFloat s with
    | none => Except.error Err.ParseError
    | some r => Except.ok r

/-- One row of `decode_spectrum` (parsers.py line 104): the attributes
X, Y, Z, R, SN of one Peak element, converted left to right. -/
def decodeSpectrumRow (pk : Xml) : Except Err SpectrumRow :=
  Except.bind (getAttrNum pk "X") (fun mz =>
  Except.bind (getAttrNum pk "Y") (fun it =>
  Except.bind (getAttrNum pk "Z") (fun z =>
  Except.bind (getAttrNum pk "R") (fun r =>
  Except.bind (getAttrNum pk "SN") (fun sn =>
  Except.ok (SpectrumRow.mk mz it z r sn))))))

/-- Effectful map over a list, stopping at the first failure (the order
in which a Python generator is consumed). -/
def mapE {α β : Type} (f : α → Except Err β) : List α → Except Err (List β)
  | [] => Except.ok []
  | a :: as =>
    match f a with
    | Except.error e => Except.error e
    | Except.ok b =>
      match mapE f as with
      | Except.error e => Except.error e
      | Except.ok bs => Except.ok (b :: bs)

/-- Map over a list in Option, none if any element maps to none. -/
def mapO {α β : Type} (f : α → Option β) : List α → Option (List β)
  | [] => some []
  | a :: as =>
    match f a, mapO f as with
    | some b, some bs => some (b :: bs)
    | _, _ => none

/-- `decode_spectrum` (parsers.py lines 98-105), from the unwrapped XML
on: the zip-container unwrapping of lines 99-101 is the Container
Unwrapper collaborator and is outside this embedding; the claims about
this decoder quantify over blobs through their unwrapped XML, which is
this function's argument. Finds PeakCentroids (an absent collection
element is a failure: AttributeError on NoneType, MissingField in the
taxonomy), then builds one row per Peak child in document order; the
DataFrame constructor consumes the row generator fully, so any row
failure aborts the whole table (all-or-nothing). -/
def decode_spectrum_xml (root : Xml) : Except Err (List SpectrumRow) :=
  match findEl root "PeakCentroids" with
  | none => Except.error Err.MissingField
  | some pc => mapE decodeSpectrumRow (findallEl pc "Peak")

/-- Modelled from the claim's wording (C7): a row is built from a Peak
element by mapping attribute X to mz, Y to intensity, Z to charge, R to
resolution and SN to signal-to-noise, each parsed as a number. -/
def spectrumRowSpec (pk : Xml) : Option SpectrumRow :=
  match pk.attrs.lookup "X", pk.attrs.lookup "Y", pk.attrs.lookup "Z",
        pk.attrs.lookup "R", pk.attrs.lookup "SN" with
  | some sx, some sy, some sz, some sr, some ssn =>
    match pyFloat sx, pyFloat sy, pyFloat sz, pyFloat sr, pyFloat ssn with
    | some mz, some it, some z, some r, some sn => some (SpectrumRow.mk mz it z r sn)
    | _, _, _, _, _ => none
  | _, _, _, _, _ => none

lemma spectrumRow_agree (pk : Xml) (row : SpectrumRow)
    (h : spectrumRowSpec pk = some row) : decodeSpectrumRow pk = Except.ok row := by
  rw [spectrumRowSpec] at h
  split at h
  · split at h
    · injection h with h
      subst h
      simp_all [decodeSpectrumRow, getAttrNum, Except.bind]
    · cases h
  · cases h

lemma spectrumRows_agree : ∀ (pks : List Xml) (rows : List SpectrumRow),
    mapO spectrumRowSpec pks = some rows →
    mapE decodeSpectrumRow pks = Except.ok rows := by
  intro pks
  induction pks with
  | nil =>
    intro rows h
    injection h with h
    subst h
    rfl
  | cons pk pks ih =>
    intro rows h
    rw [mapO] at h
    split at h
    · injection h with h
      subst h
      rename_i row rows2 hrow hrows
      rw [mapE, spectrumRow_agree pk row hrow, ih rows2 hrows]
    · cases h

lemma mapO_length {α β : Type} (f : α → Option β) :
    ∀ (l : List α) (bs : List β), mapO f l = some bs → bs.length = l.length := by
  intro l
  induction l with
  | nil =>
    intro bs h
    injection h with h
    subst h
    rfl
  | cons a as ih =>
    intro bs h
    rw [mapO] at h
    split at h
    · injection h with h
      subst h
      rename_i b bs2 hb hbs
      simp [ih bs2 hbs]
    · cases h

lemma mapO_get? {α β : Type} (f : α → Option β) :
    ∀ (l : List α) (bs : List β), mapO f l = some bs →
      ∀ i, bs.get? i = (l.get? i).bind f := by
  intro l
  induction l with
  | nil =>
    intro bs h i
    injection h with h
    subst h
    rfl
  | cons a as ih =>
    intro bs h i
    rw [mapO] at h
    split at h
    · injection h with h
      subst h
      rename_i b bs2 hb hbs
      cases i with
      | zero => simp [hb]
      | succ j => simpa using ih bs2 hbs j
    · cases h

/-- C7: for every unwrapped XML containing the PeakCentroids collection
element, the spectrum extractor returns one row per child Peak element
in document order — row i is built from Peak i by mapping attribute X to
mz, Y to intensity, Z to charge, R to resolution, SN to signal-to-noise
— and when the collection has zero Peak children it returns the empty
table rather than failing. -/
theorem spectrum_table (root pc : Xml) (hpc : findEl root "PeakCentroids" = some pc) :
    (findallEl pc "Peak" = [] → decode_spectrum_xml root = Except.ok [])
    ∧ (∀ rows, mapO spectrumRowSpec (findallEl pc "Peak") = some rows →
        decode_spectrum_xml root = Except.ok rows
        ∧ rows.length = (findallEl pc "Peak").length
        ∧ ∀ i, rows.get? i = ((findallEl pc "Peak").get? i).bind spectrumRowSpec) := by
  constructor
  · intro hnil
    simp [decode_spectrum_xml, hpc, hnil, mapE]
  · intro rows hrows
    refine ⟨?_, mapO_length spectrumRowSpec _ rows hrows, mapO_get? spectrumRowSpec _ rows hrows⟩
    simp only [decode_spectrum_xml, hpc]
    exact spectrumRows_agree _ rows hrows

/-- A one-peak spectrum fixture. -/
def exPeak : Xml :=
  Xml.el "Peak" [("X", "1"), ("Y", "2.5"), ("Z", "1"), ("R", "30000"), ("SN", "12")] "" []

/-- Spectrum fixture with one Peak child. -/
def exSpec : Xml :=
  Xml.el "MassSpectrum" [] "" [Xml.el "PeakCentroids" [] "" [exPeak]]

/-- Spectrum fixture with zero Peak children. -/
def exSpecEmpty : Xml :=
  Xml.el "MassSpectrum" [] "" [Xml.el "PeakCentroids" [] "" []]

theorem spectrum_table_witness :
    decode_spectrum_xml exSpecEmpty = Except.ok []
    ∧ decode_spectrum_xml exSpec
      = Except.ok [SpectrumRow.mk ⟨1, 0⟩ ⟨25, -1⟩ ⟨1, 0⟩ ⟨3, 4⟩ ⟨12, 0⟩] := by
  constructor
  · exact (spectrum_table exSpecEmpty (Xml.el "PeakCentroids" [] "" []) rfl).1 rfl
  · exact (((spectrum_table exSpec (Xml.el "PeakCentroids" [] "" [exPeak]) rfl).2
      [SpectrumRow.mk ⟨1, 0⟩ ⟨25, -1⟩ ⟨1, 0⟩ ⟨3, 4⟩ ⟨12, 0⟩]) (by decide)).1

/-- The six scalar fields of a decoded peak model (the pd.Series index
apexRT, leftRT, rightRT, width, intensityLow, intensityHigh). -/
structure PeakShape where
  apexRT : DecNum
  leftRT : DecNum
  rightRT : DecNum
  width : DecNum
  intensityLow : DecNum
  intensityHigh : DecNum
  deriving DecidableEq

/-- `float(s)` as an Except computation: ValueError is ParseError. -/
def pfE (s : String) : Except Err DecNum :=
  match pyFloat s with
  | none => Except.error Err.ParseError
  | some r => Except.ok r

/-- `float(etree.find(t).text)`: a missing element makes `.text` an
AttributeError on None (MissingField); a non-numeric text a ValueError
(ParseError). -/
def getElNum (root : Xml) (t : String) : Except Err DecNum :=
  match findEl root t with
  | none => Except.error Err.MissingField
  | some e => pfE e.txt

/-- The unpacking `low, high = (float(t.text) for t in
etree.find('IntensityRange').findall('double'))` of parsers.py line 75:
a missing IntensityRange is an AttributeError on None (MissingField);
the generator is consumed lazily, so each float conversion (a possible
ParseError) happens in order before the arity of the unpacking is
settled; an arity mismatch raises ValueError, modelled by its nearest
taxon ParseError (the claims only quantify over two-element ranges). -/
def intensityPair (root : Xml) : Except Err (DecNum × DecNum) :=
  match findEl root "IntensityRange" with
  | none => Except.error Err.MissingField
  | some ir =>
    match findallEl ir "double" with
    | [] => Except.error Err.ParseError
    | [d1] => Except.bind (pfE d1.txt) (fun _ => Except.error Err.ParseError)
    | d1 :: d2 :: rest =>
      Except.bind (pfE d1.txt) (fun lo =>
      Except.bind (pfE d2.txt) (fun hi =>
      match rest with
      | [] => Except.ok (lo, hi)
      | d3 :: _ => Except.bind (pfE d3.txt) (fun _ => Except.error Err.ParseError)))

/-- `decode_peak_model` (parsers.py lines 62-80), from the
doubly-unwrapped inner XML on: the zip → XML → base64 → zip unwrapping
of lines 63-73 is the Container Unwrapper collaborator and is outside
this embedding; the claims about this decoder quantify over blobs
through their doubly-unwrapped inner XML, this function's argument.
Evaluation order follows the source: the IntensityRange unpacking of
line 75 runs before the four scalar fields of lines 76-79, which are
read in the order ApexRT, LeftRT, RightRT, Width. -/
def decode_peak_model_xml (root : Xml) : Except Err PeakShape :=
  Except.bind (intensityPair root) (fun lohi =>
  Except.bind (getElNum root "ApexRT") (fun a =>
  Except.bind (getElNum root "LeftRT") (fun lv =>
  Except.bind (getElNum root "RightRT") (fun rv =>
  Except.bind (getElNum root "Width") (fun wv =>
  Except.ok (PeakShape.mk a lv rv wv lohi.1 lohi.2))))))

/-- C8: for every doubly-unwrapped inner XML holding numeric ApexRT,
LeftRT, RightRT and Width elements and a two-element numeric
IntensityRange, the extractor returns exactly those six values as
(apexRT, leftRT, rightRT, width, intensityLow, intensityHigh); a
required element that is absent fails with MissingField and an element
text that is not a valid number fails with ParseError (each clause
stated at the point the source reaches it, earlier stages succeeding);
no partial or default result is produced on failure, every failing case
being an Except.error. -/
theorem peak_model_spec (root : Xml) :
    (∀ ir d1 d2 lo hi ea av eL lv er rv ew wv,
      findEl root "IntensityRange" = some ir →
      findallEl ir "double" = [d1, d2] →
      pyFloat d1.txt = some lo → pyFloat d2.txt = some hi →
      findEl root "ApexRT" = some ea → pyFloat ea.txt = some av →
      findEl root "LeftRT" = some eL → pyFloat eL.txt = some lv →
      findEl root "RightRT" = some er → pyFloat er.txt = some rv →
      findEl root "Width" = some ew → pyFloat ew.txt = some wv →
      decode_peak_model_xml root = Except.ok (PeakShape.mk av lv rv wv lo hi))
    ∧ (findEl root "IntensityRange" = none →
      decode_peak_model_xml root = Except.error Err.MissingField)
    ∧ (∀ ir d1 d2 lo hi,
      findEl root "IntensityRange" = some ir →
      findallEl ir "double" = [d1, d2] →
      pyFloat d1.txt = some lo → pyFloat d2.txt = some hi →
      findEl root "ApexRT" = none →
      decode_peak_model_xml root = Except.error Err.MissingField)
    ∧ (∀ ir d1 d2 lo hi ea av,
      findEl root "IntensityRange" = some ir →
      findallEl ir "double" = [d1, d2] →
      pyFloat d1.txt = some lo → pyFloat d2.txt = some hi →
      findEl root "ApexRT" = some ea → pyFloat ea.txt = some av →
      findEl root "LeftRT" = none →
      decode_peak_model_xml root = Except.error Err.MissingField)
    ∧ (∀ ir d1 d2 lo hi ea av eL lv,
      findEl root "IntensityRange" = some ir →
      findallEl ir "double" = [d1, d2] →
      pyFloat d1.txt = some lo → pyFloat d2.txt = some hi →
      findEl root "ApexRT" = some ea → pyFloat ea.txt = some av →
      findEl root "LeftRT" = some eL → pyFloat eL.txt = some lv →
      findEl root "RightRT" = none →
      decode_peak_model_xml root = Except.error Err.MissingField)
    ∧ (∀ ir d1 d2 lo hi ea av eL lv er rv,
      findEl root "IntensityRange" = some ir →
      findallEl ir "double" = [d1, d2] →
      pyFloat d1.txt = some lo → pyFloat d2.txt = some hi →
      findEl root "ApexRT" = some ea → pyFloat ea.txt = some av →
      findEl root "LeftRT" = some eL → pyFloat eL.txt = some lv →
      findEl root "RightRT" = some er → pyFloat er.txt = some rv →
      findEl root "Width" = none →
      decode_peak_model_xml root = Except.error Err.MissingField)
    ∧ (∀ ir d1 d2,
      findEl root "IntensityRange" = some ir →
      findallEl ir "double" = [d1, d2] →
      pyFloat d1.txt = none →
      decode_peak_model_xml root = Except.error Err.ParseError)
    ∧ (∀ ir d1 d2 lo,
      findEl root "IntensityRange" = some ir →
      findallEl ir "double" = [d1, d2] →
      pyFloat d1.txt = some lo → pyFloat d2.txt = none →
      decode_peak_model_xml root = Except.error Err.ParseError)
    ∧ (∀ ir d1 d2 lo hi ea,
      findEl root "IntensityRange" = some ir →
      findallEl ir "double" = [d1, d2] →
      pyFloat d1.txt = some lo → pyFloat d2.txt = some hi →
      findEl root "ApexRT" = some ea → pyFloat ea.txt = none →
      decode_peak_model_xml root = Except.error Err.ParseError)
    ∧ (∀ ir d1 d2 lo hi ea av eL,
      findEl root "IntensityRange" = some ir →
      findallEl ir "double" = [d1, d2] →
      pyFloat d1.txt = some lo → pyFloat d2.txt = some hi →
      findEl root "ApexRT" = some ea → pyFloat ea.txt = some av →
      findEl root "LeftRT" = some eL → pyFloat eL.txt = none →
      decode_peak_model_xml root = Except.error Err.ParseError)
    ∧ (∀ ir d1 d2 lo hi ea av eL lv er,
      findEl root "IntensityRange" = some ir →
      findallEl ir "double" = [d1, d2] →
      pyFloat d1.txt = some lo → pyFloat d2.txt = some hi →
      findEl root "ApexRT" = some ea → pyFloat ea.txt = some av →
      findEl root "LeftRT" = some eL → pyFloat eL.txt = some lv →
      findEl root "RightRT" = some er → pyFloat er.txt = none →
      decode_peak_model_xml root = Except.error Err.ParseError)
    ∧ (∀ ir d1 d2 lo hi ea av eL lv er rv ew,
      findEl root "IntensityRange" = some ir →
      findallEl ir "double" = [d1, d2] →
      pyFloat d1.txt = some lo → pyFloat d2.txt = some hi →
      findEl root "ApexRT" = some ea → pyFloat ea.txt = some av →
      findEl root "LeftRT" = some eL → pyFloat eL.txt = some lv →
      findEl root "RightRT" = some er → pyFloat er.txt = some rv →
      findEl root "Width" = some ew → pyFloat ew.txt = none →
      decode_peak_model_xml root = Except.error Err.ParseError)
    ∧ (∀ e, decode_peak_model_xml root = Except.error e →
      ∀ shape, decode_peak_model_xml root ≠ Except.ok shape) := by
  refine ⟨?_, ?_, ?_, ?_, ?_, ?_, ?_, ?_, ?_, ?_, ?_, ?_, ?_⟩
  · intro ir d1 d2 lo hi ea av eL lv er rv ew wv h1 h2 h3 h4 h5 h6 h7 h8 h9 h10 h11 h12
    simp [decode_peak_model_xml, intensityPair, getElNum, pfE, Except.bind,
      h1, h2, h3, h4, h5, h6, h7, h8, h9, h10, h11, h12]
  · intro h1
    simp [decode_peak_model_xml, intensityPair, Except.bind, h1]
  · intro ir d1 d2 lo hi h1 h2 h3 h4 h5
    simp [decode_peak_model_xml, intensityPair, getElNum, pfE, Except.bind,
      h1, h2, h3, h4, h5]
  · intro ir d1 d2 lo hi ea av h1 h2 h3 h4 h5 h6 h7
    simp [decode_peak_model_xml, intensityPair, getElNum, pfE, Except.bind,
      h1, h2, h3, h4, h5, h6, h7]
  · intro ir d1 d2 lo hi ea av eL lv h1 h2 h3 h4 h5 h6 h7 h8 h9
    simp [decode_peak_model_xml, intensityPair, getElNum, pfE, Except.bind,
      h1, h2, h3, h4, h5, h6, h7, h8, h9]
  · intro ir d1 d2 lo hi ea av eL lv er rv h1 h2 h3 h4 h5 h6 h7 h8 h9 h10 h11
    simp [decode_peak_model_xml, intensityPair, getElNum, pfE, Except.bind,
      h1, h2, h3, h4, h5, h6, h7, h8, h9, h10, h11]
  · intro ir d1 d2 h1 h2 h3
    simp [decode_peak_model_xml, intensityPair, pfE, Except.bind, h1, h2, h3]
  · intro ir d1 d2 lo h1 h2 h3 h4
    simp [decode_peak_model_xml, intensityPair, pfE, Except.bind, h1, h2, h3, h4]
  · intro ir d1 d2 lo hi ea h1 h2 h3 h4 h5 h6
    simp [decode_peak_model_xml, intensityPair, getElNum, pfE, Except.bind,
      h1, h2, h3, h4, h5, h6]
  · intro ir d1 d2 lo hi ea av eL h1 h2 h3 h4 h5 h6 h7 h8
    simp [decode_peak_model_xml, intensityPair, getElNum, pfE, Except.bind,
      h1, h2, h3, h4, h5, h6, h7, h8]
  · intro ir d1 d2 lo hi ea av eL lv er h1 h2 h3 h4 h5 h6 h7 h8 h9 h10
    simp [decode_peak_model_xml, intensityPair, getElNum, pfE, Except.bind,
      h1, h2, h3, h4, h5, h6, h7, h8, h9, h10]
  · intro ir d1 d2 lo hi ea av eL lv er rv ew h1 h2 h3 h4 h5 h6 h7 h8 h9 h10 h11 h12
    simp [decode_peak_model_xml, intensityPair, getElNum, pfE, Except.bind,
      h1, h2, h3, h4, h5, h6, h7, h8, h9, h10, h11, h12]
  · intro e he shape hok
    rw [he] at hok
    cases hok

/-- Peak-model fixture: the doubly-unwrapped inner XML of the example in
parsers.py lines 45-61. -/
def exModel : Xml :=
  Xml.el "PycoPeakModel" [] ""
    [Xml.el "ApexRT" [] "5.14251207635566" [],
     Xml.el "LeftRT" [] "5.0705754833446273" [],
     Xml.el "RightRT" [] "5.245777979330482" [],
     Xml.el "IntensityRange" [] ""
       [Xml.el "double" [] "0" [], Xml.el "double" [] "112808.6875" []],
     Xml.el "Emphasize" [] "false" [],
     Xml.el "Width" [] "0.084733989250721287" [],
     Xml.el "Method" [] "Linear" []]

/-- The same fixture with the Width element removed. -/
def exModelNoWidth : Xml :=
  Xml.el "PycoPeakModel" [] ""
    [Xml.el "ApexRT" [] "5.14251207635566" [],
     Xml.el "LeftRT" [] "5.0705754833446273" [],
     Xml.el "RightRT" [] "5.245777979330482" [],
     Xml.el "IntensityRange" [] ""
       [Xml.el "double" [] "0" [], Xml.el "double" [] "112808.6875" []],
     Xml.el "Emphasize" [] "false" [],
     Xml.el "Method" [] "Linear" []]

theorem peak_model_spec_witness :
    decode_peak_model_xml exModel
      = Except.ok (PeakShape.mk ⟨514251207635566, -14⟩ ⟨50705754833446273, -16⟩
          ⟨5245777979330482, -15⟩ ⟨84733989250721287, -18⟩ ⟨0, 0⟩ ⟨1128086875, -4⟩)
    ∧ decode_peak_model_xml exModelNoWidth = Except.error Err.MissingField := by
  constructor
  · exact (peak_model_spec exModel).1 _ _ _ _ _ _ _ _ _ _ _ _ _
      rfl rfl rfl rfl rfl rfl rfl rfl rfl rfl rfl rfl
  · exact (peak_model_spec exModelNoWidth).2.2.2.2.2.1 _ _ _ _ _ _ _ _ _ _ _
      rfl rfl rfl rfl rfl rfl rfl rfl rfl rfl rfl

/-- C10: every decoder is deterministic and free of hidden state: on
equal inputs each decoder returns identical output. The embedding is
pure by construction, and faithfully so: the source decoders read only
their argument and the immutable module-level code tables, assign no
global, and cannot mutate their input (Python bytes are immutable), so
no decode call observes state left by another and repeated decodes of
the same blob agree. -/
theorem decoders_deterministic (b1 b2 : List Nat) (hb : b1 = b2)
    (x1 x2 : Xml) (hx : x1 = x2) :
    decode_peak_ratings b1 = decode_peak_ratings b2
    ∧ decode_peak_areas b1 = decode_peak_areas b2
    ∧ decode_gap_fill_status b1 = decode_gap_fill_status b2
    ∧ decode_gap_status b1 = decode_gap_status b2
    ∧ decode_retention_times b1 = decode_retention_times b2
    ∧ decode_spectrum_xml x1 = decode_spectrum_xml x2
    ∧ decode_peak_model_xml x1 = decode_peak_model_xml x2 := by
  subst hb
  subst hx
  exact ⟨rfl, rfl, rfl, rfl, rfl, rfl, rfl⟩

theorem decoders_deterministic_witness :
    decode_gap_fill_status [44, 1, 0, 0, 0] = decode_gap_fill_status [44, 1, 0, 0, 0]
    ∧ decode_spectrum_xml exSpec = decode_spectrum_xml exSpec :=
  ⟨(decoders_deterministic [44, 1, 0, 0, 0] [44, 1, 0, 0, 0] rfl exSpec exSpec rfl).2.2.1,
   (decoders_deterministic [44, 1, 0, 0, 0] [44, 1, 0, 0, 0] rfl exSpec exSpec rfl).2.2.2.2.2.1⟩
